import Mathlib

/- Formal model of the Maia chess backend engine module
   (backend/maia_engine.py): weight-file resolution, the engine process
   cache, fallback construction, the move-prediction pipeline and the
   idle-eviction sweep.  External effects (the filesystem, the lc0
   subprocess, the python-chess engine protocol, the random generator and
   the clock) are passed in as explicit inputs; the module-level mutable
   state (the dictionaries named _engine_cache and _engine_stats in the
   source) is threaded as an explicit state value. -/

deriving instance DecidableEq for Except

namespace Maia

/-- A chess move as in python-chess: a source square 0..63, a target
square 0..63 and an optional promotion piece letter. -/
structure Move where
  fromSq : Fin 64
  toSq : Fin 64
  promotion : Option Char
deriving DecidableEq, Repr

/-- File letter of a square, as in python-chess square_name. -/
def fileChar (n : Fin 64) : Char := Char.ofNat (97 + n.val % 8)

/-- Rank digit of a square, as in python-chess square_name. -/
def rankChar (n : Fin 64) : Char := Char.ofNat (49 + n.val / 8)

/-- python-chess square_name: file letter then rank digit. -/
def squareName (n : Fin 64) : String := String.mk [fileChar n, rankChar n]

/-- The uci method of a python-chess Move: source square name, target
square name, and the promotion letter when present. -/
def uci (m : Move) : String :=
  squareName m.fromSq ++ squareName m.toSq ++
    (match m.promotion with
     | some c => String.mk [c]
     | none => "")

/-- The outcome of constructing a chess.Board from a FEN string, reduced to
what the pipeline inspects: the list of legal moves and the is_game_over
flag.  FEN parsing happens inside the python-chess library, so a predict
call receives the parse outcome; a failed parse (the ValueError on a
malformed FEN) is modelled as the absence of a Board. -/
structure Board where
  legalMoves : List Move
  gameOver : Bool
deriving DecidableEq, Repr

/-- The error taxonomy of the pipeline.  invalidPosition, noLegalMoves and
invalidNodeBudget are the three ValueErrors raised by predict_move;
modelNotFound is the FileNotFoundError of _get_weights_path; engineInit
models a launch failure other than a missing binary; engineBackend models
the RuntimeError wrapping a chess.engine.EngineError; noMoveProduced the
RuntimeError raised when the engine returns no move; indexError the
IndexError that random.choice raises on an empty sequence; invalidLevel
belongs to the taxonomy of the specification but is raised nowhere in the
source. -/
inductive PredictErr where
  | invalidPosition
  | noLegalMoves
  | invalidNodeBudget
  | invalidLevel
  | modelNotFound
  | engineInit
  | engineBackend
  | noMoveProduced
  | indexError
deriving DecidableEq, Repr

/-- Lookup in a Python dict keyed by level, modelled as an association
list. -/
def lookupAssoc {α : Type} (l : List (Int × α)) (k : Int) : Option α :=
  match l with
  | [] => none
  | (k2, v) :: rest => if k2 = k then some v else lookupAssoc rest k

/-- Assignment d[k] = v on a Python dict modelled as an association
list: update the entry in place or append a fresh one. -/
def setAssoc {α : Type} (l : List (Int × α)) (k : Int) (v : α) : List (Int × α) :=
  match l with
  | [] => [(k, v)]
  | (k2, v2) :: rest => if k2 = k then (k2, v) :: rest else (k2, v2) :: setAssoc rest k v

/-- The per-level dictionaries of the module-level _engine_stats value.
The validation_metrics rolling list is pure logging and is not modelled.
Wall-clock seconds and memory megabytes are modelled as integers. -/
structure EngineStats where
  startupTimes : List (Int × Int)
  moveCounts : List (Int × Nat)
  totalComputeTime : List (Int × Int)
  lastUsed : List (Int × Int)
  memoryUsage : List (Int × Int)
deriving DecidableEq, Repr

/-- Which variant of handle a cache slot holds: a native lc0 SimpleEngine
or the internal _RandomEngine fallback. -/
inductive EngineVariant where
  | native
  | fallback
deriving DecidableEq, Repr

/-- The module-level mutable state: _engine_cache and _engine_stats. -/
structure EngState where
  cache : List (Int × EngineVariant)
  stats : EngineStats
deriving DecidableEq, Repr

/-- The _WEIGHTS_DIRS list, written relative to the backend directory. -/
def WEIGHTS_DIRS : List String :=
  ["../maia_weights", "../models", "maia_weights", "models"]

/-- The weight file name probed for a level. -/
def weightsFilename (level : Int) : String :=
  "maia-" ++ toString level ++ ".pb.gz"

/-- The candidate paths probed by _get_weights_path, in directory order. -/
def candidatePaths (level : Int) : List String :=
  WEIGHTS_DIRS.map (fun d => d ++ "/" ++ weightsFilename level)

/-- First candidate that exists on the filesystem (os.path.exists), the
filesystem being modelled as the list of existing paths. -/
def findFirstExisting (fs : List String) : List String → Option String
  | [] => none
  | c :: rest => if c ∈ fs then some c else findFirstExisting fs rest

/-- _get_weights_path: probe the candidate directories in order and return
the first existing weight file; raise FileNotFoundError when none
exists. -/
def getWeightsPath (fs : List String) (level : Int) : Except PredictErr String :=
  match findFirstExisting fs (candidatePaths level) with
  | some p => .ok p
  | none => .error .modelNotFound

/-- Outcome of chess.engine.SimpleEngine.popen_uci launching lc0: a
running engine, a FileNotFoundError because the binary is absent, or any
other launch failure. -/
inductive LaunchResult where
  | launched
  | binaryAbsent
  | failed
deriving DecidableEq, Repr

/-- Observable events of a _get_engine call, recording the order of the
cache probe, the weight resolution, the subprocess start and the stats
recording. -/
inductive Event where
  | cacheHit
  | cacheMiss
  | resolveWeights
  | popenStart
  | fallbackConstructed
  | statsRecord
  | cacheStore
deriving DecidableEq, Repr

/-- The five assignments recording startup_times, move_counts,
total_compute_time, last_used and memory_usage for a freshly created
engine. -/
def recordStartup (st : EngineStats) (level : Int) (startupTime : Int)
    (now : Int) (memDelta : Int) : EngineStats :=
  { startupTimes := setAssoc st.startupTimes level startupTime,
    moveCounts := setAssoc st.moveCounts level 0,
    totalComputeTime := setAssoc st.totalComputeTime level 0,
    lastUsed := setAssoc st.lastUsed level now,
    memoryUsage := setAssoc st.memoryUsage level memDelta }

/-- Result of an engine lookup or creation: the produced handle or the
raised error, the module state after the call, and the event trace. -/
structure GetEngineResult where
  result : Except PredictErr EngineVariant
  st : EngState
  trace : List Event
deriving DecidableEq, Repr

/-- The cache-miss path of _get_engine, the EngineFactory of the
specification: resolve the weight file, launch lc0 — falling back to the
internal _RandomEngine exactly on FileNotFoundError and propagating any
other launch failure — then record startup stats and store the handle in
the cache. -/
def createEngine (fs : List String) (launch : LaunchResult)
    (startupTime : Int) (now : Int) (memDelta : Int)
    (st : EngState) (level : Int) : GetEngineResult :=
  match getWeightsPath fs level with
  | .error e => ⟨.error e, st, [.resolveWeights]⟩
  | .ok _ =>
    match launch with
    | .failed => ⟨.error .engineInit, st, [.resolveWeights, .popenStart]⟩
    | .launched =>
      ⟨.ok .native,
       { cache := setAssoc st.cache level .native,
         stats := recordStartup st.stats level startupTime now memDelta },
       [.resolveWeights, .popenStart, .statsRecord, .cacheStore]⟩
    | .binaryAbsent =>
      ⟨.ok .fallback,
       { cache := setAssoc st.cache level .fallback,
         stats := recordStartup st.stats level startupTime now memDelta },
       [.resolveWeights, .popenStart, .fallbackConstructed, .statsRecord, .cacheStore]⟩

/-- _get_engine: return the cached engine for a level, refreshing its
last_used timestamp, or create one on a miss. -/
def getEngine (fs : List String) (launch : LaunchResult)
    (startupTime : Int) (now : Int) (memDelta : Int)
    (st : EngState) (level : Int) : GetEngineResult :=
  match lookupAssoc st.cache level with
  | some v =>
    ⟨.ok v,
     { st with stats := { st.stats with lastUsed := setAssoc st.stats.lastUsed level now } },
     [.cacheHit]⟩
  | none =>
    let c := createEngine fs launch startupTime now memDelta st level
    ⟨c.result, c.st, .cacheMiss :: c.trace⟩

/-- Raw answer of the external lc0 process to one search request, before
the python-chess protocol layer interprets it: an engine fault, or a
bestmove line that may carry no move. -/
inductive NativeOut where
  | fault
  | bestmove (m : Option Move)
deriving DecidableEq, Repr

/-- The play method of chess.engine.SimpleEngine for the native engine: a
fault of the backend raises EngineError; a bestmove answer is parsed
against the board and an illegal move also raises EngineError (the
python-chess protocol validates bestmove); an empty bestmove yields a
result whose move is None. -/
def simpleEnginePlay (b : Board) (out : NativeOut) : Except PredictErr (Option Move) :=
  match out with
  | .fault => .error .engineBackend
  | .bestmove none => .ok none
  | .bestmove (some m) =>
    if m ∈ b.legalMoves then .ok (some m) else .error .engineBackend

/-- The play method of the internal _RandomEngine:
random.choice(list(board.legal_moves)), the random draw modelled by an
index seed reduced modulo the number of legal moves; on an empty sequence
random.choice raises IndexError. -/
def randomEnginePlay (b : Board) (seed : Nat) : Except PredictErr (Option Move) :=
  match b.legalMoves.get? (seed % b.legalMoves.length) with
  | some m => .ok (some m)
  | none => .error .indexError

/-- engine.play dispatched on the variant of the cached handle. -/
def enginePlay (v : EngineVariant) (b : Board) (out : NativeOut) (seed : Nat) :
    Except PredictErr (Option Move) :=
  match v with
  | .native => simpleEnginePlay b out
  | .fallback => randomEnginePlay b seed

/-- The nodes argument of predict_move: a Python int, or a value of any
other type, for which isinstance(nodes, int) is false. -/
inductive NodesArg where
  | intVal (n : Int)
  | nonInt
deriving DecidableEq, Repr

/-- The node-budget validation of predict_move: the argument is an int and
lies between 1 and 10000. -/
def validNodes : NodesArg → Bool
  | .intVal n => decide (1 ≤ n) && decide (n ≤ 10000)
  | .nonInt => false

/-- The external world of one predict_move call: the filesystem, the lc0
launch outcome, the native engine answer, the random seed of the fallback,
and the clock and memory readings. -/
structure PredictEnv where
  fs : List String
  launch : LaunchResult
  nativeOut : NativeOut
  seed : Nat
  startupTime : Int
  now : Int
  memDelta : Int
  moveTime : Int
deriving Repr

/-- The statistics updates after a successful search: initialise the
per-level counters when the level is absent from move_counts, then
increment move_counts, add the computation time to total_compute_time and
refresh last_used. -/
def recordMoveStats (st : EngineStats) (level : Int) (moveTime : Int) (now : Int) :
    EngineStats :=
  let st1 :=
    match lookupAssoc st.moveCounts level with
    | some _ => st
    | none =>
      { st with
        moveCounts := setAssoc st.moveCounts level 0,
        totalComputeTime := setAssoc st.totalComputeTime level 0 }
  { st1 with
    moveCounts :=
      setAssoc st1.moveCounts level ((lookupAssoc st1.moveCounts level).getD 0 + 1),
    totalComputeTime :=
      setAssoc st1.totalComputeTime level
        ((lookupAssoc st1.totalComputeTime level).getD 0 + moveTime),
    lastUsed := setAssoc st1.lastUsed level now }

/-- Result of one predict_move call: the returned move string or the
raised error, the module state after the call, and the engine-access
trace. -/
structure PredictResult where
  result : Except PredictErr String
  st : EngState
  trace : List Event
deriving DecidableEq, Repr

/-- predict_move: build the board (the parse outcome is the input), reject
game-over positions, validate the node budget, fetch or create the engine,
run the search, and update the per-level counters on success. -/
def predictMove (parse : Option Board) (level : Int) (nodes : NodesArg)
    (env : PredictEnv) (st : EngState) : PredictResult :=
  match parse with
  | none => ⟨.error .invalidPosition, st, []⟩
  | some b =>
    if b.gameOver then ⟨.error .noLegalMoves, st, []⟩
    else if validNodes nodes then
      let g := getEngine env.fs env.launch env.startupTime env.now env.memDelta st level
      match g.result with
      | .error e => ⟨.error e, g.st, g.trace⟩
      | .ok v =>
        match enginePlay v b env.nativeOut env.seed with
        | .error e => ⟨.error e, g.st, g.trace⟩
        | .ok none => ⟨.error .noMoveProduced, g.st, g.trace⟩
        | .ok (some m) =>
          ⟨.ok (uci m),
           { g.st with stats := recordMoveStats g.st.stats level env.moveTime env.now },
           g.trace ++ [.statsRecord]⟩
    else ⟨.error .invalidNodeBudget, st, []⟩

/-- cleanup_unused_engines: collect the levels whose last_used timestamp
is strictly older than max_age_seconds, then, for each such level still in
the cache, call quit() and delete the cache entry.  The two statements sit
in one try block whose except clause only logs: when quit() raises — the
outcome of the external call is the quitFails input — the deletion is
skipped and the stale handle stays cached.  The stats dictionaries are
left untouched either way. -/
def cleanupUnusedEngines (maxAge : Int) (now : Int) (quitFails : Int → Bool)
    (st : EngState) : EngState :=
  let enginesToRemove :=
    (st.stats.lastUsed.filter (fun p => decide (maxAge < now - p.2))).map Prod.fst
  { st with
    cache :=
      st.cache.filter (fun p => decide (p.1 ∉ enginesToRemove) || quitFails p.1) }

/-- The engine_type string that predict_move_with_validation_logging
computes from the point-in-time _check_lc0_availability probe. -/
def engineTypeTag (lc0Available : Bool) : String :=
  if lc0Available then "LC0" else "RANDOM_FALLBACK"

/-- The tag that truthfully names a handle variant, used to state what the
engine-kind tag of an outcome ought to identify. -/
def variantTag : EngineVariant → String
  | .native => "LC0"
  | .fallback => "RANDOM_FALLBACK"

/-- predict_move_with_validation_logging: probe lc0 availability to pick
the engine_type tag, delegate to predict_move, and return the move paired
with the tag; an error propagates unchanged. -/
def predictMoveWithValidationLogging (lc0Available : Bool) (parse : Option Board)
    (level : Int) (nodes : NodesArg) (env : PredictEnv) (st : EngState) :
    Except PredictErr (String × String) × EngState :=
  let r := predictMove parse level nodes env st
  match r.result with
  | .ok mv => (.ok (mv, engineTypeTag lc0Available), r.st)
  | .error e => (.error e, r.st)

/-- Program counter of one thread running the cache-miss protocol of
_get_engine for a fixed level: test level in _engine_cache, construct the
handle (weights plus launch), store it with the dict assignment, done. -/
inductive TPC where
  | checkCache
  | construct
  | writeCache
  | done
deriving DecidableEq, Repr

/-- One thread of the interleaving model: its program counter and the
handle reference it holds, handles being numbered by creation order. -/
structure ThreadSt where
  pc : TPC
  handle : Option Nat
deriving DecidableEq, Repr

/-- Shared and per-thread state of two threads running _get_engine for the
same level concurrently.  The source protects none of the three steps with
a lock (the Lock import of the module is never used), so any interleaving
of the steps is possible.  constructed counts handle constructions. -/
structure RaceSt where
  cache : Option Nat
  nextId : Nat
  constructed : Nat
  t1 : ThreadSt
  t2 : ThreadSt
deriving DecidableEq, Repr

/-- One step of a thread against the shared cache: the cache test either
returns the cached handle or moves to construction; construction makes a
fresh handle; the store publishes the thread's handle. -/
def threadStep (cache : Option Nat) (nextId : Nat) (constructed : Nat)
    (t : ThreadSt) : (Option Nat × Nat × Nat) × ThreadSt :=
  match t.pc with
  | .checkCache =>
    match cache with
    | some h => ((cache, nextId, constructed), ⟨.done, some h⟩)
    | none => ((cache, nextId, constructed), ⟨.construct, t.handle⟩)
  | .construct =>
    ((cache, nextId + 1, constructed + 1), ⟨.writeCache, some nextId⟩)
  | .writeCache =>
    ((t.handle, nextId, constructed), ⟨.done, t.handle⟩)
  | .done => ((cache, nextId, constructed), t)

/-- Advance the thread selected by the scheduler by one step. -/
def raceStep (who : Bool) (s : RaceSt) : RaceSt :=
  if who then
    let r := threadStep s.cache s.nextId s.constructed s.t1
    { cache := r.1.1, nextId := r.1.2.1, constructed := r.1.2.2, t1 := r.2, t2 := s.t2 }
  else
    let r := threadStep s.cache s.nextId s.constructed s.t2
    { cache := r.1.1, nextId := r.1.2.1, constructed := r.1.2.2, t1 := s.t1, t2 := r.2 }

/-- Run a schedule, each entry naming the thread that takes the next
step. -/
def raceRun (sched : List Bool) (s : RaceSt) : RaceSt :=
  sched.foldl (fun s w => raceStep w s) s

/-- Initial state: empty cache for the level, both threads about to test
the cache. -/
def raceInit : RaceSt :=
  { cache := none, nextId := 0, constructed := 0,
    t1 := ⟨.checkCache, none⟩, t2 := ⟨.checkCache, none⟩ }

/-- The move e2e4, a legal opening move. -/
def sampleMove : Move := ⟨12, 28, none⟩

/-- A non-terminal board whose legal-move list holds e2e4. -/
def sampleBoard : Board := ⟨[sampleMove], false⟩

/-- Empty statistics dictionaries, the state at module import. -/
def emptyStats : EngineStats := ⟨[], [], [], [], []⟩

/-- Empty cache and empty statistics, the state at module import. -/
def emptySt : EngState := ⟨[], emptyStats⟩

/-- A state whose cache holds a fallback handle for level 1500. -/
def fallbackSt : EngState := ⟨[(1500, .fallback)], emptyStats⟩

/-- A state with a native handle for level 1500 last used at time 0. -/
def staleSt : EngState :=
  ⟨[(1500, .native)],
   { startupTimes := [], moveCounts := [], totalComputeTime := [],
     lastUsed := [(1500, 0)], memoryUsage := [] }⟩

/-- An environment with an empty filesystem, the lc0 binary absent, a
silent native engine and seed 0. -/
def sampleEnv : PredictEnv := ⟨[], .binaryAbsent, .bestmove none, 0, 0, 0, 0, 0⟩

/-- A filesystem holding exactly the level-1500 weight file in the Docker
weights directory. -/
def fs1500 : List String := ["maia_weights/maia-1500.pb.gz"]

theorem findFirstExisting_eq_none (fs : List String) (l : List String)
    (h : ∀ p ∈ l, p ∉ fs) : findFirstExisting fs l = none := by
  induction l with
  | nil => rfl
  | cons c rest ih =>
    simp only [findFirstExisting]
    rw [if_neg (h c (List.mem_cons_self c rest))]
    exact ih fun p hp => h p (List.mem_cons_of_mem c hp)

theorem findFirstExisting_eq_some (fs : List String) (l : List String) (p : String)
    (h : findFirstExisting fs l = some p) :
    ∃ pre suf, l = pre ++ p :: suf ∧ p ∈ fs ∧ ∀ q ∈ pre, q ∉ fs := by
  induction l with
  | nil => simp [findFirstExisting] at h
  | cons c rest ih =>
    by_cases hc : c ∈ fs
    · simp only [findFirstExisting, if_pos hc, Option.some.injEq] at h
      subst h
      exact ⟨[], rest, rfl, hc, by simp⟩
    · simp only [findFirstExisting, if_neg hc] at h
      obtain ⟨pre, suf, hl, hp, hpre⟩ := ih h
      refine ⟨c :: pre, suf, by simp [hl], hp, ?_⟩
      intro q hq
      rcases List.mem_cons.mp hq with rfl | hq
      · exact hc
      · exact hpre q hq

theorem getWeightsPath_error (fs : List String) (level : Int) (e : PredictErr)
    (h : getWeightsPath fs level = .error e) : e = .modelNotFound := by
  unfold getWeightsPath at h
  split at h
  · exact absurd h (by simp)
  · simpa using h.symm

theorem lookupAssoc_setAssoc_self {α : Type} (l : List (Int × α)) (k : Int) (v : α) :
    lookupAssoc (setAssoc l k v) k = some v := by
  induction l with
  | nil => simp [setAssoc, lookupAssoc]
  | cons hd rest ih =>
    obtain ⟨k2, v2⟩ := hd
    by_cases hk : k2 = k
    · simp [setAssoc, lookupAssoc, hk]
    · simp [setAssoc, lookupAssoc, hk, ih]

theorem createEngine_error_cases (fs : List String) (launch : LaunchResult)
    (stime tnow mdelta : Int) (st : EngState) (level : Int) (e : PredictErr)
    (h : (createEngine fs launch stime tnow mdelta st level).result = .error e) :
    e = .modelNotFound ∨ e = .engineInit := by
  rcases hw : getWeightsPath fs level with e2 | p
  · have he2 := getWeightsPath_error fs level e2 hw
    simp only [createEngine, hw] at h
    subst he2
    simp only [Except.error.injEq] at h
    exact Or.inl h.symm
  · cases launch with
    | launched => simp [createEngine, hw] at h
    | binaryAbsent => simp [createEngine, hw] at h
    | failed =>
      simp only [createEngine, hw, Except.error.injEq] at h
      exact Or.inr h.symm

theorem getEngine_error_cases (fs : List String) (launch : LaunchResult)
    (stime tnow mdelta : Int) (st : EngState) (level : Int) (e : PredictErr)
    (h : (getEngine fs launch stime tnow mdelta st level).result = .error e) :
    e = .modelNotFound ∨ e = .engineInit := by
  rcases hl : lookupAssoc st.cache level with _ | v
  · simp only [getEngine, hl] at h
    exact createEngine_error_cases fs launch stime tnow mdelta st level e h
  · simp [getEngine, hl] at h

theorem enginePlay_error_cases (v : EngineVariant) (b : Board) (out : NativeOut)
    (seed : Nat) (e : PredictErr) (h : enginePlay v b out seed = .error e) :
    e = .engineBackend ∨ e = .indexError := by
  cases v with
  | native =>
    rcases out with _ | mo
    · simp only [enginePlay, simpleEnginePlay, Except.error.injEq] at h
      exact Or.inl h.symm
    · rcases mo with _ | m2
      · simp [enginePlay, simpleEnginePlay] at h
      · by_cases hm : m2 ∈ b.legalMoves
        · simp [enginePlay, simpleEnginePlay, hm] at h
        · simp only [enginePlay, simpleEnginePlay, if_neg hm, Except.error.injEq] at h
          exact Or.inl h.symm
  | fallback =>
    rcases hg : b.legalMoves.get? (seed % b.legalMoves.length) with _ | m2
    · simp only [enginePlay, randomEnginePlay, hg, Except.error.injEq] at h
      exact Or.inr h.symm
    · simp only [enginePlay, randomEnginePlay, hg] at h
      exact absurd h (by simp)

theorem enginePlay_ok_mem (v : EngineVariant) (b : Board) (out : NativeOut)
    (seed : Nat) (m : Move) (h : enginePlay v b out seed = .ok (some m)) :
    m ∈ b.legalMoves := by
  cases v with
  | native =>
    rcases out with _ | mo
    · simp [enginePlay, simpleEnginePlay] at h
    · rcases mo with _ | m2
      · simp [enginePlay, simpleEnginePlay] at h
      · by_cases hm : m2 ∈ b.legalMoves
        · simp only [enginePlay, simpleEnginePlay, if_pos hm, Except.ok.injEq,
            Option.some.injEq] at h
          exact h ▸ hm
        · simp [enginePlay, simpleEnginePlay, hm] at h
  | fallback =>
    rcases hg : b.legalMoves.get? (seed % b.legalMoves.length) with _ | m2
    · simp only [enginePlay, randomEnginePlay, hg] at h
      exact absurd h (by simp)
    · simp only [enginePlay, randomEnginePlay, hg, Except.ok.injEq, Option.some.injEq] at h
      exact h ▸ List.get?_mem hg

theorem squareName_length (n : Fin 64) : (squareName n).length = 2 := rfl

theorem uci_length_ge (m : Move) : 4 ≤ (uci m).length := by
  rcases hp : m.promotion with _ | c
  · simp [uci, hp, String.length_append, squareName_length]
  · have h1 : (String.mk [c]).length = 1 := rfl
    simp [uci, hp, String.length_append, squareName_length, h1]

/-- C1: the claim states that concurrent acquire calls for one level that
each observe a cache miss construct exactly one handle, shared by every
caller.  The source takes no lock in _get_engine (the module's
threading.Lock is imported but never used), so in the interleaving in which both
threads pass the level-in-cache test before either stores a handle, each
thread constructs its own handle: the run below ends with two
constructions, the two callers holding distinct handles, and the cache
holding the second handle while the first leaks. -/
theorem acquire_race_constructs_two_handles :
    (raceRun [true, false, true, true, false, false] raceInit).constructed = 2 ∧
    (raceRun [true, false, true, true, false, false] raceInit).t1.handle ≠
      (raceRun [true, false, true, true, false, false] raceInit).t2.handle ∧
    (raceRun [true, false, true, true, false, false] raceInit).cache =
      (raceRun [true, false, true, true, false, false] raceInit).t2.handle ∧
    (raceRun [true, false, true, true, false, false] raceInit).t1.pc = .done ∧
    (raceRun [true, false, true, true, false, false] raceInit).t2.pc = .done := by
  decide

/-- C10: a predict_move call that fails validation — malformed position,
game-over position, or out-of-range node budget — raises before any engine
lookup: the module state comes back unchanged and the engine-access trace
is empty, so neither the engine cache nor any statistics counter moves. -/
theorem predict_validation_failure_is_atomic (parse : Option Board) (level : Int)
    (nodes : NodesArg) (env : PredictEnv) (st : EngState)
    (h : parse = none ∨ (∃ b, parse = some b ∧ b.gameOver = true) ∨
      validNodes nodes = false) :
    (∃ e, (predictMove parse level nodes env st).result = .error e) ∧
    (predictMove parse level nodes env st).st = st ∧
    (predictMove parse level nodes env st).trace = [] := by
  rcases h with h | ⟨b, hb, hgo⟩ | h
  · subst h
    exact ⟨⟨.invalidPosition, rfl⟩, rfl, rfl⟩
  · subst hb
    refine ⟨⟨.noLegalMoves, ?_⟩, ?_, ?_⟩ <;> simp [predictMove, hgo]
  · rcases parse with _ | b
    · exact ⟨⟨.invalidPosition, rfl⟩, rfl, rfl⟩
    · by_cases hgo : b.gameOver = true
      · refine ⟨⟨.noLegalMoves, ?_⟩, ?_, ?_⟩ <;> simp [predictMove, hgo]
      · refine ⟨⟨.invalidNodeBudget, ?_⟩, ?_, ?_⟩ <;> simp [predictMove, hgo, h]

/-- Witness for C10 at a malformed position. -/
theorem predict_validation_failure_is_atomic_witness :
    (∃ e, (predictMove none 1500 (.intVal 1) sampleEnv emptySt).result = .error e) ∧
    (predictMove none 1500 (.intVal 1) sampleEnv emptySt).st = emptySt ∧
    (predictMove none 1500 (.intVal 1) sampleEnv emptySt).trace = [] :=
  predict_validation_failure_is_atomic none 1500 (.intVal 1) sampleEnv emptySt (Or.inl rfl)

/-- C3: on a valid non-terminal position, a node budget that is not an
integer in the range 1..10000 makes predict_move fail with the node-budget
ValueError, while every integer budget in the range — 10000 included —
passes the check, and the call then never fails with that error. -/
theorem predict_node_budget_validation (b : Board) (level : Int)
    (env : PredictEnv) (st : EngState) (hb : b.gameOver = false) :
    (∀ n : Int, n < 1 ∨ 10000 < n →
      (predictMove (some b) level (.intVal n) env st).result = .error .invalidNodeBudget) ∧
    (predictMove (some b) level .nonInt env st).result = .error .invalidNodeBudget ∧
    (∀ n : Int, 1 ≤ n → n ≤ 10000 →
      (predictMove (some b) level (.intVal n) env st).result ≠
        .error .invalidNodeBudget) := by
  refine ⟨?_, ?_, ?_⟩
  · intro n hn
    have hv : validNodes (.intVal n) = false := by
      simp [validNodes]
      omega
    simp [predictMove, hb, hv]
  · simp [predictMove, hb, validNodes]
  · intro n h1 h2 hcon
    have hv : validNodes (.intVal n) = true := by
      simp [validNodes]
      omega
    simp only [predictMove, hb, hv] at hcon
    simp only [Bool.false_eq_true, if_false, if_true] at hcon
    rcases hge : (getEngine env.fs env.launch env.startupTime env.now env.memDelta
        st level).result with e | v
    · simp only [hge] at hcon
      rcases getEngine_error_cases env.fs env.launch env.startupTime env.now env.memDelta
          st level e hge with he | he <;> simp [he] at hcon
    · simp only [hge] at hcon
      rcases hpl : enginePlay v b env.nativeOut env.seed with e | mo
      · simp only [hpl] at hcon
        rcases enginePlay_error_cases v b env.nativeOut env.seed e hpl with he | he <;>
          simp [he] at hcon
      · rcases mo with _ | m
        · simp [hpl] at hcon
        · simp [hpl] at hcon

/-- Witness for C3 at budgets 0, 10001 and 10000 on a concrete board. -/
theorem predict_node_budget_validation_witness :
    (predictMove (some sampleBoard) 1500 (.intVal 0) sampleEnv fallbackSt).result =
      .error .invalidNodeBudget ∧
    (predictMove (some sampleBoard) 1500 (.intVal 10001) sampleEnv fallbackSt).result =
      .error .invalidNodeBudget ∧
    (predictMove (some sampleBoard) 1500 (.intVal 10000) sampleEnv fallbackSt).result ≠
      .error .invalidNodeBudget := by
  refine ⟨?_, ?_, ?_⟩
  · exact (predict_node_budget_validation sampleBoard 1500 sampleEnv fallbackSt rfl).1 0
      (Or.inl (by norm_num))
  · exact (predict_node_budget_validation sampleBoard 1500 sampleEnv fallbackSt rfl).1 10001
      (Or.inr (by norm_num))
  · exact (predict_node_budget_validation sampleBoard 1500 sampleEnv fallbackSt rfl).2.2 10000
      (by norm_num) (by norm_num)

/-- C4: whenever predict_move returns a move string for an accepted
position — valid syntax, non-terminal — that string is the UCI encoding of
a member of the position's legal-move list, and its length is at least 4.
This holds on both engine variants: the fallback draws from the legal-move
list, and a native bestmove is validated against the board by the
python-chess protocol before it is returned. -/
theorem predict_returns_legal_uci (b : Board) (level : Int) (nodes : NodesArg)
    (env : PredictEnv) (st : EngState) (s : String)
    (h : (predictMove (some b) level nodes env st).result = .ok s) :
    ∃ m ∈ b.legalMoves, s = uci m ∧ 4 ≤ s.length := by
  by_cases hgo : b.gameOver = true
  · simp [predictMove, hgo] at h
  · rw [Bool.not_eq_true] at hgo
    by_cases hv : validNodes nodes = true
    · simp only [predictMove, hgo, hv, Bool.false_eq_true, if_false, if_true] at h
      rcases hge : (getEngine env.fs env.launch env.startupTime env.now env.memDelta
          st level).result with e | v
      · simp only [hge] at h
        exact absurd h (by simp)
      · simp only [hge] at h
        rcases hpl : enginePlay v b env.nativeOut env.seed with e | mo
        · simp only [hpl] at h
          exact absurd h (by simp)
        · rcases mo with _ | m
          · simp only [hpl] at h
            exact absurd h (by simp)
          · simp only [hpl, Except.ok.injEq] at h
            exact ⟨m, enginePlay_ok_mem v b env.nativeOut env.seed m hpl, h.symm,
              h ▸ uci_length_ge m⟩
    · simp [predictMove, hgo, hv] at h

/-- Witness for C4: a concrete call through the cached fallback handle
returns e2e4, legal and of length 4. -/
theorem predict_returns_legal_uci_witness :
    ∃ m ∈ sampleBoard.legalMoves, "e2e4" = uci m ∧ 4 ≤ ("e2e4" : String).length :=
  predict_returns_legal_uci sampleBoard 1500 (.intVal 1) sampleEnv fallbackSt "e2e4"
    (by decide)

/-- C2 counterexample: at the unsupported level 9999, on a valid
non-terminal position with a valid budget, predict_move fails with the
FileNotFoundError of the weight lookup — ModelNotFound — and not with an
InvalidLevel failure: the source contains no level-membership check, and
the trace shows the cache probed before the weight resolution. -/
theorem predict_unsupported_level_counterexample :
    (predictMove (some sampleBoard) 9999 (.intVal 1) sampleEnv emptySt).result =
      .error .modelNotFound ∧
    (predictMove (some sampleBoard) 9999 (.intVal 1) sampleEnv emptySt).result ≠
      .error .invalidLevel ∧
    (predictMove (some sampleBoard) 9999 (.intVal 1) sampleEnv emptySt).trace =
      [.cacheMiss, .resolveWeights] := by
  decide

/-- C2 amended: for every level whose weight file exists in none of the
candidate directories, predict_move on an otherwise valid request fails
with ModelNotFound; the failure arises inside the engine lookup after the
cache-membership test — the trace is the cache miss followed by the weight
resolution — no subprocess is started, no handle is constructed, and the
module state is unchanged. -/
theorem predict_unsupported_level_modelNotFound (b : Board) (level : Int) (n : Int)
    (env : PredictEnv) (st : EngState) (hb : b.gameOver = false)
    (h1 : 1 ≤ n) (h2 : n ≤ 10000)
    (hmiss : lookupAssoc st.cache level = none)
    (hfs : ∀ p ∈ candidatePaths level, p ∉ env.fs) :
    (predictMove (some b) level (.intVal n) env st).result = .error .modelNotFound ∧
    (predictMove (some b) level (.intVal n) env st).st = st ∧
    (predictMove (some b) level (.intVal n) env st).trace =
      [.cacheMiss, .resolveWeights] := by
  have hv : validNodes (.intVal n) = true := by
    simp [validNodes]
    omega
  have hw : getWeightsPath env.fs level = .error .modelNotFound := by
    unfold getWeightsPath
    rw [findFirstExisting_eq_none env.fs (candidatePaths level) hfs]
  have hge : getEngine env.fs env.launch env.startupTime env.now env.memDelta st level =
      ⟨.error .modelNotFound, st, [.cacheMiss, .resolveWeights]⟩ := by
    simp only [getEngine, hmiss, createEngine, hw]
  simp only [predictMove, hb, hv, Bool.false_eq_true, if_false, if_true, hge]
  exact ⟨trivial, trivial, trivial⟩

/-- Witness for C2 amended at level 9999 on an empty filesystem. -/
theorem predict_unsupported_level_modelNotFound_witness :
    (predictMove (some sampleBoard) 9999 (.intVal 2) sampleEnv emptySt).result =
      .error .modelNotFound ∧
    (predictMove (some sampleBoard) 9999 (.intVal 2) sampleEnv emptySt).st = emptySt ∧
    (predictMove (some sampleBoard) 9999 (.intVal 2) sampleEnv emptySt).trace =
      [.cacheMiss, .resolveWeights] :=
  predict_unsupported_level_modelNotFound sampleBoard 9999 2 sampleEnv emptySt rfl
    (by norm_num) (by norm_num) rfl (by decide)

/-- C5: the weight artifact is resolved by probing the candidate
directories in order with the first match winning — a returned path is an
existing candidate all of whose predecessors in the probe order do not
exist — and when no candidate exists, create fails with ModelNotFound
before any subprocess start: no popen event occurs and the module state is
untouched. -/
theorem create_probes_in_order_and_fails_before_popen (fs : List String)
    (level : Int) (launch : LaunchResult) (stime tnow mdelta : Int) (st : EngState) :
    (∀ p, getWeightsPath fs level = .ok p →
      ∃ pre suf, candidatePaths level = pre ++ p :: suf ∧ p ∈ fs ∧ ∀ q ∈ pre, q ∉ fs) ∧
    ((∀ p ∈ candidatePaths level, p ∉ fs) →
      (createEngine fs launch stime tnow mdelta st level).result = .error .modelNotFound ∧
      Event.popenStart ∉ (createEngine fs launch stime tnow mdelta st level).trace ∧
      (createEngine fs launch stime tnow mdelta st level).st = st) := by
  constructor
  · intro p hp
    unfold getWeightsPath at hp
    rcases hf : findFirstExisting fs (candidatePaths level) with _ | q
    · rw [hf] at hp
      exact absurd hp (by simp)
    · rw [hf] at hp
      simp only [Except.ok.injEq] at hp
      subst hp
      exact findFirstExisting_eq_some fs (candidatePaths level) q hf
  · intro hfs
    have hw : getWeightsPath fs level = .error .modelNotFound := by
      unfold getWeightsPath
      rw [findFirstExisting_eq_none fs (candidatePaths level) hfs]
    refine ⟨?_, ?_, ?_⟩ <;> simp [createEngine, hw]

/-- Witness for C5: level 1500 resolves to the Docker weights directory
when that file is the only one present, and an empty filesystem makes
create fail with ModelNotFound without starting a subprocess. -/
theorem create_probes_in_order_and_fails_before_popen_witness :
    (∃ pre suf, candidatePaths 1500 = pre ++ "maia_weights/maia-1500.pb.gz" :: suf ∧
      "maia_weights/maia-1500.pb.gz" ∈ fs1500 ∧ ∀ q ∈ pre, q ∉ fs1500) ∧
    ((createEngine [] .launched 0 0 0 emptySt 1500).result = .error .modelNotFound ∧
      Event.popenStart ∉ (createEngine [] .launched 0 0 0 emptySt 1500).trace ∧
      (createEngine [] .launched 0 0 0 emptySt 1500).st = emptySt) := by
  constructor
  · exact (create_probes_in_order_and_fails_before_popen fs1500 1500 .launched
      0 0 0 emptySt).1 "maia_weights/maia-1500.pb.gz" (by decide)
  · exact (create_probes_in_order_and_fails_before_popen [] 1500 .launched
      0 0 0 emptySt).2 (by decide)

/-- C6: once the weight file resolves, a launch that fails because the
lc0 binary is absent is absorbed by constructing the fallback handle;
any other launch failure propagates as the engine-initialisation error
instead of degrading; a clean launch yields the native handle; and the
fallback draws its move among the position's legal moves with every legal
move reachable — the seed equal to a move's index selects that move, so a
uniformly distributed seed selects uniformly among the legal moves. -/
theorem create_fallback_only_on_missing_binary (fs : List String) (level : Int)
    (stime tnow mdelta : Int) (st : EngState) (p : String)
    (hw : getWeightsPath fs level = .ok p) :
    (createEngine fs .binaryAbsent stime tnow mdelta st level).result = .ok .fallback ∧
    (createEngine fs .failed stime tnow mdelta st level).result = .error .engineInit ∧
    (createEngine fs .launched stime tnow mdelta st level).result = .ok .native ∧
    (∀ bd : Board, ∀ mv ∈ bd.legalMoves, ∃ seed : Nat,
      randomEnginePlay bd seed = .ok (some mv)) := by
  refine ⟨by simp [createEngine, hw], by simp [createEngine, hw],
    by simp [createEngine, hw], ?_⟩
  intro bd mv hmv
  obtain ⟨i, hi⟩ := List.mem_iff_get.mp hmv
  refine ⟨i.val, ?_⟩
  have hlen : i.val % bd.legalMoves.length = i.val := Nat.mod_eq_of_lt i.isLt
  unfold randomEnginePlay
  rw [hlen, List.get?_eq_get i.isLt, hi]

/-- Witness for C6: with the level-1500 weight file present, the three
launch outcomes produce fallback, error and native respectively, and a
seed reaching e2e4 on the sample board exists. -/
theorem create_fallback_only_on_missing_binary_witness :
    (createEngine fs1500 .binaryAbsent 0 0 0 emptySt 1500).result = .ok .fallback ∧
    (createEngine fs1500 .failed 0 0 0 emptySt 1500).result = .error .engineInit ∧
    (createEngine fs1500 .launched 0 0 0 emptySt 1500).result = .ok .native ∧
    (∃ seed : Nat, randomEnginePlay sampleBoard seed = .ok (some sampleMove)) := by
  have h := create_fallback_only_on_missing_binary fs1500 1500 0 0 0 emptySt
    "maia_weights/maia-1500.pb.gz" (by decide)
  exact ⟨h.1, h.2.1, h.2.2.1, h.2.2.2 sampleBoard sampleMove (by decide)⟩

/-- C7 counterexample: with a fallback handle cached for level 1500 and
the lc0 binary available at prediction time, the logged prediction tags
its outcome LC0 — the native kind — although the move was produced by the
cached fallback handle, whose truthful tag is RANDOM_FALLBACK: the
engine_type tag derives from a point-in-time availability probe, not from
the handle that computed the move. -/
theorem engine_kind_tag_counterexample :
    (predictMoveWithValidationLogging true (some sampleBoard) 1500 (.intVal 1)
        sampleEnv fallbackSt).1 = .ok ("e2e4", "LC0") ∧
    (getEngine sampleEnv.fs sampleEnv.launch sampleEnv.startupTime sampleEnv.now
        sampleEnv.memDelta fallbackSt 1500).result = .ok .fallback ∧
    variantTag .fallback ≠ "LC0" := by
  decide

/-- C7 amended: every successful outcome of the logged prediction carries
the engine-kind tag computed from the point-in-time availability probe —
LC0 when the probe succeeds, RANDOM_FALLBACK otherwise; the tag names the
variant that produced the move exactly when that variant agrees with the
probe (native if and only if available), not in general. -/
theorem engine_kind_tag_reflects_probe (avail : Bool) (parse : Option Board)
    (level : Int) (nodes : NodesArg) (env : PredictEnv) (st : EngState)
    (mv tag : String)
    (h : (predictMoveWithValidationLogging avail parse level nodes env st).1 =
      .ok (mv, tag)) :
    tag = engineTypeTag avail ∧
    ∀ v, (getEngine env.fs env.launch env.startupTime env.now env.memDelta
        st level).result = .ok v →
      ((v = .native) ↔ (avail = true)) → tag = variantTag v := by
  have htag : tag = engineTypeTag avail := by
    simp only [predictMoveWithValidationLogging] at h
    rcases hr : (predictMove parse level nodes env st).result with e | mv2
    · simp only [hr] at h
      exact absurd h (by simp)
    · simp only [hr, Except.ok.injEq, Prod.mk.injEq] at h
      exact h.2.symm
  refine ⟨htag, ?_⟩
  intro v hv hiff
  cases v with
  | native =>
    have ha : avail = true := hiff.mp rfl
    subst ha
    simpa [variantTag, engineTypeTag] using htag
  | fallback =>
    have ha : avail = false := by
      cases avail
      · rfl
      · exact absurd (hiff.mpr rfl) (by simp)
    subst ha
    simpa [variantTag, engineTypeTag] using htag

/-- Witness for C7 amended: with the probe failing and a fallback handle
cached, the tag is RANDOM_FALLBACK and names the producing variant. -/
theorem engine_kind_tag_reflects_probe_witness :
    "RANDOM_FALLBACK" = engineTypeTag false ∧
    "RANDOM_FALLBACK" = variantTag .fallback := by
  have h := engine_kind_tag_reflects_probe false (some sampleBoard) 1500 (.intVal 1)
    sampleEnv fallbackSt "e2e4" "RANDOM_FALLBACK" (by decide)
  exact ⟨h.1, h.2 .fallback (by decide) (by decide)⟩

/-- C8 counterexample: a create call that fails — ModelNotFound on an
empty filesystem, or a launch failure other than a missing binary —
records nothing: the statistics dictionaries are unchanged and no
stats-record event occurs, refuting the recording of startup latency and
memory delta regardless of outcome. -/
theorem create_failed_records_no_stats_counterexample :
    (createEngine [] .launched 7 8 9 fallbackSt 9999).result = .error .modelNotFound ∧
    (createEngine [] .launched 7 8 9 fallbackSt 9999).st = fallbackSt ∧
    Event.statsRecord ∉ (createEngine [] .launched 7 8 9 fallbackSt 9999).trace ∧
    (createEngine fs1500 .failed 7 8 9 fallbackSt 1500).result = .error .engineInit ∧
    (createEngine fs1500 .failed 7 8 9 fallbackSt 1500).st = fallbackSt ∧
    Event.statsRecord ∉ (createEngine fs1500 .failed 7 8 9 fallbackSt 1500).trace := by
  decide

/-- C8 amended: create records the startup latency and memory delta of
the level exactly on the outcomes that produce a handle — successful
native launch and fallback construction; on ModelNotFound and on a launch
failure the exception propagates first, the statistics stay untouched and
no stats-record event occurs. -/
theorem create_records_stats_iff_handle (fs : List String) (launch : LaunchResult)
    (stime tnow mdelta : Int) (st : EngState) (level : Int) :
    (∀ v, (createEngine fs launch stime tnow mdelta st level).result = .ok v →
      lookupAssoc (createEngine fs launch stime tnow mdelta st level).st.stats.startupTimes
        level = some stime ∧
      lookupAssoc (createEngine fs launch stime tnow mdelta st level).st.stats.memoryUsage
        level = some mdelta ∧
      Event.statsRecord ∈ (createEngine fs launch stime tnow mdelta st level).trace) ∧
    (∀ e, (createEngine fs launch stime tnow mdelta st level).result = .error e →
      (createEngine fs launch stime tnow mdelta st level).st = st ∧
      Event.statsRecord ∉ (createEngine fs launch stime tnow mdelta st level).trace) := by
  rcases hw : getWeightsPath fs level with e2 | p
  · constructor
    · intro v hv
      simp [createEngine, hw] at hv
    · intro e he
      refine ⟨?_, ?_⟩ <;> simp [createEngine, hw]
  · cases launch with
    | launched =>
      constructor
      · intro v hv
        refine ⟨?_, ?_, ?_⟩ <;>
          simp [createEngine, hw, recordStartup, lookupAssoc_setAssoc_self]
      · intro e he
        simp [createEngine, hw] at he
    | binaryAbsent =>
      constructor
      · intro v hv
        refine ⟨?_, ?_, ?_⟩ <;>
          simp [createEngine, hw, recordStartup, lookupAssoc_setAssoc_self]
      · intro e he
        simp [createEngine, hw] at he
    | failed =>
      constructor
      · intro v hv
        simp [createEngine, hw] at hv
      · intro e he
        refine ⟨?_, ?_⟩ <;> simp [createEngine, hw]

/-- Witness for C8 amended: a successful launch records latency 7 and
memory delta 9 for level 1500; a ModelNotFound failure leaves the state
unchanged with no record event. -/
theorem create_records_stats_iff_handle_witness :
    (lookupAssoc (createEngine fs1500 .launched 7 8 9 emptySt 1500).st.stats.startupTimes
       1500 = some 7 ∧
     lookupAssoc (createEngine fs1500 .launched 7 8 9 emptySt 1500).st.stats.memoryUsage
       1500 = some 9 ∧
     Event.statsRecord ∈ (createEngine fs1500 .launched 7 8 9 emptySt 1500).trace) ∧
    ((createEngine [] .launched 7 8 9 emptySt 1500).st = emptySt ∧
     Event.statsRecord ∉ (createEngine [] .launched 7 8 9 emptySt 1500).trace) := by
  constructor
  · exact (create_records_stats_iff_handle fs1500 .launched 7 8 9 emptySt 1500).1
      .native (by decide)
  · exact (create_records_stats_iff_handle [] .launched 7 8 9 emptySt 1500).2
      .modelNotFound (by decide)

/-- C9 counterexample: the cached handle of level 1500 was last used at
time 0; a sweep at time 301 with threshold 300 satisfies threshold less
than now minus last use, and the sweep — with quit() succeeding — evicts
the handle, refuting the claim that a handle is never evicted by a sweep
whose threshold is smaller than now minus its last-use time.  The code
evicts exactly in that case, so nothing protects a handle inside a search
running longer than the threshold. -/
theorem evict_idle_counterexample :
    (300 : Int) < 301 - 0 ∧
    (cleanupUnusedEngines 300 301 (fun _ => false) staleSt).cache = [] := by
  decide

/-- C9 amended: a level stays cached across the sweep if and only if it
was cached and either every last-used entry for it lies within maxAge of
the sweep time or its quit() raised: the sweep removes and releases
exactly the stale handles whose release succeeds, a release failure is
logged and swallowed with the deletion skipped and the stale handle left
cached, every handle used within the threshold window remains, and the
statistics dictionaries are untouched. -/
theorem evict_idle_removes_exactly_stale (maxAge tnow : Int) (quitFails : Int → Bool)
    (st : EngState) (level : Int) (v : EngineVariant) :
    ((level, v) ∈ (cleanupUnusedEngines maxAge tnow quitFails st).cache ↔
      ((level, v) ∈ st.cache ∧
        ((∀ t, (level, t) ∈ st.stats.lastUsed → tnow - t ≤ maxAge) ∨
          quitFails level = true))) ∧
    (cleanupUnusedEngines maxAge tnow quitFails st).stats = st.stats := by
  constructor
  · simp only [cleanupUnusedEngines, List.mem_filter, Bool.or_eq_true, decide_eq_true_eq]
    constructor
    · rintro ⟨hmem, hkeep⟩
      refine ⟨hmem, ?_⟩
      rcases hkeep with hnotin | hq
      · left
        intro t ht
        by_contra hgt
        push_neg at hgt
        exact hnotin (List.mem_map.mpr
          ⟨(level, t), List.mem_filter.mpr ⟨ht, by simpa using hgt⟩, rfl⟩)
      · right
        exact hq
    · rintro ⟨hmem, hcond⟩
      refine ⟨hmem, ?_⟩
      rcases hcond with hall | hq
      · left
        intro hin
        obtain ⟨⟨l2, t⟩, hf, hfst⟩ := List.mem_map.mp hin
        obtain ⟨hml, hdec⟩ := List.mem_filter.mp hf
        simp only [decide_eq_true_eq] at hdec
        simp only at hfst
        subst hfst
        have := hall t hml
        omega
      · right
        exact hq
  · rfl

/-- Witness for C9 amended: a sweep whose threshold exceeds the age of
the level-1500 handle keeps it cached, and a stale handle whose quit()
raises also stays cached. -/
theorem evict_idle_removes_exactly_stale_witness :
    (1500, EngineVariant.native) ∈
      (cleanupUnusedEngines 400 301 (fun _ => false) staleSt).cache ∧
    (1500, EngineVariant.native) ∈
      (cleanupUnusedEngines 300 301 (fun _ => true) staleSt).cache := by
  constructor
  · exact (evict_idle_removes_exactly_stale 400 301 (fun _ => false) staleSt
        1500 .native).1.mpr
      ⟨by decide, Or.inl (by
        intro t ht
        simp [staleSt] at ht
        omega)⟩
  · exact (evict_idle_removes_exactly_stale 300 301 (fun _ => true) staleSt
        1500 .native).1.mpr
      ⟨by decide, Or.inr rfl⟩

end Maia
